import Mathlib

/-!
Verification of the castle-cron job scheduler against its specification.

The development shallowly embeds the Go sources of the repository:

* `src/cron/jobs.go`   — the `Job` record, the codec (`Serialize` /
  `Deserialize`), `ListJobs`, `SetNextRuntime`, and the Zookeeper
  writers `WriteToZk` / `UpdateZk` / `DeleteFromZk`;
* `src/cron/server.go` — the scheduler loop `Run` (one iteration),
  `checkForNextjobUpdate`, `updateSchedule` and `setNextjob`;
* `src/cli/cli.go`     — `buildJobFromArgs`, `AddCommand`, `UpdCommand`,
  `DelCommand`, `ListCommand`;
* `src/unnamed/part_002` (cron.go) — `setServerName`.

The Zookeeper store is modelled as the part of the tree the scheduler
reads and writes: the children of `/jobs` (an association list in
listing order, each holding the serialized bytes of a job) and the
contents of `/nextjob`.  Wall-clock time is an integer count of
nanoseconds, as in Go's `time.Time`/`time.Duration`; `t1.After(t2)`
is `t2 < t1` and `t1.Before(t2)` is `t1 < t2`.  The cron-expression
library `gorhill/cronexpr` is external to the repository and is passed
in as a pure oracle `schedule → now → Option Time`, exactly the
signature the spec gives the Schedule Oracle.  Calls that Go runs for
their effects only (logging) are dropped.
-/

namespace CastleCron

/-- Absolute instants and durations, in nanoseconds as in Go `time`. -/
abbrev Time := Int

/-- The Schedule Oracle of the spec: `cronexpr.Parse` followed by
`.Next(now)`; `none` is an invalid schedule string. -/
abbrev Oracle := String → Time → Option Time

/-- The `Job` struct of `src/cron/jobs.go`. -/
structure Job where
  Name : String
  Cmd : String
  Args : List String
  HasError : Bool
  NextRuntime : Time
  Schedule : String
deriving Repr, DecidableEq

/-- Go's `time.Duration(24) * time.Hour` in nanoseconds. -/
def day : Time := 24 * 60 * 60 * 1000000000

/-! ## The job codec

`Serialize`/`Deserialize` in `src/cron/jobs.go` delegate to Go's
`encoding/gob`, an external library.  Modelled from the spec:
"Serialization is implementation-defined but must be self-describing
and round-trip stable; both CLI and server use the same codec."  The
model is a field-wise, length-prefixed (hence self-describing)
encoding of the six fields of `Job`, in declaration order, over an
alphabet of natural-number tokens; a leading tag token mirrors gob's
type preamble and keeps every encoded job non-empty. -/

/-- One string, as a length prefix followed by its characters. -/
def encodeString (s : String) : List Nat :=
  s.data.length :: s.data.map Char.toNat

/-- A list of strings, as a count prefix followed by the encoded
elements. -/
def encodeStringList (l : List String) : List Nat :=
  l.length :: (l.map encodeString).flatten

/-- A boolean as one token. -/
def encodeBool (b : Bool) : Nat := if b then 1 else 0

/-- An integer as one token, folding the sign into parity. -/
def encodeInt (i : Int) : Nat :=
  if 0 ≤ i then 2 * i.toNat else 2 * (-i).toNat + 1

/-- Inverse of `encodeInt`. -/
def decodeInt (n : Nat) : Int :=
  if n % 2 = 0 then ((n / 2 : Nat) : Int) else -((n / 2 : Nat) : Int)

/-- Read back one string; returns the remaining input. -/
def decodeString : List Nat → Option (String × List Nat)
  | [] => none
  | n :: rest =>
    if n ≤ rest.length then
      some (String.mk ((rest.take n).map Char.ofNat), rest.drop n)
    else none

/-- Read back a counted list of strings. -/
def decodeStringList : Nat → List Nat → Option (List String × List Nat)
  | 0, rest => some ([], rest)
  | k + 1, rest =>
    match decodeString rest with
    | none => none
    | some (s, rest1) =>
      match decodeStringList k rest1 with
      | none => none
      | some (l, rest2) => some (s :: l, rest2)

/-- `Job.Serialize` of `src/cron/jobs.go`: encode the whole record.
The tag `1` plays the role of gob's stream preamble. -/
def Serialize (job : Job) : List Nat :=
  1 :: (encodeString job.Name ++
       (encodeString job.Cmd ++
       (encodeStringList job.Args ++
       (encodeBool job.HasError :: encodeInt job.NextRuntime ::
        encodeString job.Schedule))))

/-- The gob decode step inside `Deserialize`: read the six fields back
and require the input to be exhausted. -/
def decodeJob (b : List Nat) : Option Job :=
  match b with
  | 1 :: rest =>
    match decodeString rest with
    | none => none
    | some (name, r1) =>
      match decodeString r1 with
      | none => none
      | some (cmd, r2) =>
        match r2 with
        | [] => none
        | k :: r3 =>
          match decodeStringList k r3 with
          | none => none
          | some (args, r4) =>
            match r4 with
            | hb :: hi :: r5 =>
              match decodeString r5 with
              | none => none
              | some (sched, r6) =>
                if r6 = [] then
                  some { Name := name, Cmd := cmd, Args := args,
                         HasError := hb == 1, NextRuntime := decodeInt hi,
                         Schedule := sched }
                else none
            | _ => none
  | _ => none

/-- `Deserialize` of `src/cron/jobs.go`: a nil or empty byte string
yields the zero `Job` with `NextRuntime` pushed a day into the future
("Ensure null job isn't scheduled"); otherwise gob-decode.  `now` is
the `time.Now()` the Go code reads inside the function. -/
def Deserialize (now : Time) (b : List Nat) : Except String Job :=
  if b = [] then
    .ok { Name := "", Cmd := "", Args := [], HasError := false,
          NextRuntime := now + day, Schedule := "" }
  else
    match decodeJob b with
    | some job => .ok job
    | none => .error "Unable to decode job"

/-! ## The coordination store

The slice of the Zookeeper tree the embedded operations touch: the
children of `/jobs` as an association list `(name, serialized bytes)`
in listing order, and the contents of the `/nextjob` node (present
from bootstrap on, per invariant I2). -/

structure Store where
  jobs : List (String × List Nat)
  nextjob : List Nat
deriving Repr, DecidableEq

/-- `zkConn.Get("/jobs/<name>")`: the bytes when the node exists. -/
def getJobBytes (s : Store) (name : String) : Option (List Nat) :=
  s.jobs.lookup name

/-- `Job.SetNextRuntime` of `src/cron/jobs.go`: parse the schedule with
the external oracle; on failure return `(job unchanged, false, error)`;
on success overwrite `NextRuntime` and report whether it moved.  The
triple mirrors the Go receiver mutation plus the `(changed, e)`
results. -/
def setNextRuntime (oracle : Oracle) (now : Time) (job : Job) :
    Job × Bool × Option String :=
  match oracle job.Schedule now with
  | none => (job, false,
      some ("Invalid schedule string " ++ job.Schedule ++ " for job " ++ job.Name))
  | some t => ({ job with NextRuntime := t }, decide (job.NextRuntime ≠ t), none)

/-- `Job.UpdateZk` of `src/cron/jobs.go`: `zkConn.Set` of the serialized
job onto the existing `/jobs/<name>` node (Set fails when the node is
absent).  Lock handling is the caller's reentrancy guard and does not
change the store. -/
def UpdateZk (job : Job) (s : Store) : Except String Store :=
  if (s.jobs.lookup job.Name).isSome then
    .ok { s with jobs :=
            s.jobs.map (fun p => if p.1 = job.Name then (p.1, Serialize job) else p) }
  else .error ("Unable to update job " ++ job.Name)

/-- `Job.WriteToZk` of `src/cron/jobs.go`: `zkConn.Create` of a fresh
`/jobs/<name>` node (Create fails when the node exists). -/
def WriteToZk (job : Job) (s : Store) : Except String Store :=
  if (s.jobs.lookup job.Name).isSome then
    .error ("Unable to create job " ++ job.Name)
  else .ok { s with jobs := s.jobs ++ [(job.Name, Serialize job)] }

/-- `Job.DeleteFromZk` of `src/cron/jobs.go`: `zkConn.Delete` of
`/jobs/<name>` (Delete fails when the node is absent). -/
def DeleteFromZk (name : String) (s : Store) : Except String Store :=
  if (s.jobs.lookup name).isSome then
    .ok { s with jobs := s.jobs.filter (fun p => p.1 != name) }
  else .error ("Unable to delete job " ++ name)

/-- The fetch loop of `ListJobs`: `zkConn.Get` then `Deserialize` for
each name, failing on a missing node or an undecodable job. -/
def fetchJobs (now : Time) (s : Store) : List String → Except String (List Job)
  | [] => .ok []
  | n :: rest =>
    match s.jobs.lookup n with
    | none => .error ("Can't fetch job " ++ n)
    | some b =>
      match Deserialize now b with
      | .error e => .error e
      | .ok j =>
        match fetchJobs now s rest with
        | .error e => .error e
        | .ok js => .ok (j :: js)

/-- `ListJobs` of `src/cron/jobs.go`: an empty name lists the sorted
children of `/jobs`; any other name is fetched literally, as the single
element of `jobnames`. -/
def ListJobs (now : Time) (name : String) (s : Store) : Except String (List Job) :=
  let jobnames :=
    if name = "" then (s.jobs.map Prod.fst).mergeSort (fun a b => decide (a ≤ b))
    else [name]
  fetchJobs now s jobnames

/-! ## Server-side head maintenance (`src/cron/server.go`) -/

/-- Modelled from the spec: the reserved sentinel name.  The constant
`NULL_JOBNAME` used by `checkForNextjobUpdate` is not under `src/`;
the spec reserves "a Job with a reserved sentinel name (e.g. empty
string)" for "no job scheduled". -/
def NULL_JOBNAME : String := ""

/-- Modelled from the spec: `publishHead(job)` is
`set(/nextjob, serialize(job))`.  The method `Job.UpdateZkNextjob`
called by `checkForNextjobUpdate` is not under `src/`. -/
def UpdateZkNextjob (job : Job) (s : Store) : Store :=
  { s with nextjob := Serialize job }

/-- The selection fold inside `setNextjob`: walk the decoded children
keeping `job`, replacing it by `job2` when
`job == nil || (job.NextRuntime.After(job2.NextRuntime) && !job2.HasError)`. -/
def selectLoop (now : Time) :
    Option Job → List (String × List Nat) → Except String (Option Job)
  | acc, [] => .ok acc
  | acc, (_, b) :: rest =>
    match Deserialize now b with
    | .error e => .error e
    | .ok job2 =>
      match acc with
      | none => selectLoop now (some job2) rest
      | some job =>
        if job2.NextRuntime < job.NextRuntime ∧ job2.HasError = false then
          selectLoop now (some job2) rest
        else selectLoop now (some job) rest

/-- `setNextjob` of `src/cron/server.go`: scan all children of `/jobs`
and store the selected job in `/nextjob`; when there are no children
only a warning is logged and the store is untouched. -/
def setNextjob (now : Time) (s : Store) : Except String Store :=
  match selectLoop now none s.jobs with
  | .error e => .error e
  | .ok none => .ok s
  | .ok (some job) => .ok { s with nextjob := Serialize job }

/-- `checkForNextjobUpdate` of `src/cron/server.go`: read `/nextjob`;
if it holds the sentinel, publish the changed job (or recompute when
the change was a deletion, signalled by `job.HasError`); if it names a
different job, do nothing; if it names the changed job, publish it (or
recompute for a deletion). -/
def checkForNextjobUpdate (now : Time) (job : Job) (s : Store) :
    Except String Store :=
  match Deserialize now s.nextjob with
  | .error e => .error e
  | .ok nextjob =>
    if nextjob.Name = NULL_JOBNAME then
      if job.HasError then setNextjob now s
      else .ok (UpdateZkNextjob job s)
    else if nextjob.Name ≠ job.Name then .ok s
    else if job.HasError then setNextjob now s
    else .ok (UpdateZkNextjob job s)

/-- `updateSchedule` of `src/cron/server.go`: recompute the run job's
`NextRuntime`; on an invalid schedule or an unchanged instant only the
in-memory copy is marked `HasError` (the `else if` chain skips
`UpdateZk`); on a changed instant persist the new runtime; then
recompute `/nextjob` with `setNextjob`. -/
def updateSchedule (oracle : Oracle) (now : Time) (job : Job) (s : Store) :
    Except String Store :=
  match setNextRuntime oracle now job with
  | (_, _, some _) => setNextjob now s
  | (job2, changed, none) =>
    if changed = false then setNextjob now s
    else
      match UpdateZk job2 s with
      | .error e => .error e
      | .ok s2 => setNextjob now s2

/-- What one pass of the `for isRunning` loop in `Run` does. -/
inductive IterResult where
  | waited (hasLockAfter : Bool)
  | locked
  | dispatched (job : Job) (after : Store)
  | fatal (msg : String)
deriving Repr, DecidableEq

/-- One iteration of the scheduler loop `Run` in `src/cron/server.go`:
read and decode `/nextjob`; a future head releases the lock and waits
on the watch/timer pair; a ready head without the lock acquires it and
re-enters the loop; a ready head with the lock is dispatched
(`go job.Run()`) and the schedule is updated, releasing the lock. -/
def runIteration (oracle : Oracle) (now : Time) (hasLock : Bool) (s : Store) :
    IterResult :=
  match Deserialize now s.nextjob with
  | .error e => .fatal e
  | .ok job =>
    if now < job.NextRuntime then .waited false
    else if hasLock = false then .locked
    else
      match updateSchedule oracle now job s with
      | .error e => .fatal e
      | .ok s2 => .dispatched job s2

/-! ## CLI commands (`src/cli/cli.go`) -/

/-- `buildJobFromArgs` of `src/cli/cli.go`: positions 1–3 are name,
schedule, command; the rest are arguments; the initial `NextRuntime`
comes from `SetNextRuntime`, whose error aborts the command. -/
def buildJobFromArgs (oracle : Oracle) (now : Time) (args : List String) :
    Except String Job :=
  if args.length < 4 then
    .error ("Not enough arguments for " ++ args.headD "" ++ " subcommand")
  else
    let job : Job :=
      { Name := args.getD 1 "", Cmd := args.getD 3 "", Args := args.drop 4,
        HasError := false, NextRuntime := 0, Schedule := args.getD 2 "" }
    match setNextRuntime oracle now job with
    | (_, _, some e) => .error e
    | (j, _, none) => .ok j

/-- `AddCommand` of `src/cli/cli.go`: build the job, then `WriteToZk`.
The pair returns the command outcome together with the store after the
command; an error leaves the store as it was. -/
def AddCommand (oracle : Oracle) (now : Time) (args : List String) (s : Store) :
    Except String Job × Store :=
  match buildJobFromArgs oracle now args with
  | .error e => (.error e, s)
  | .ok job =>
    match WriteToZk job s with
    | .error e => (.error e, s)
    | .ok s2 => (.ok job, s2)

/-- `UpdCommand` of `src/cli/cli.go`: build the job, then `UpdateZk`. -/
def UpdCommand (oracle : Oracle) (now : Time) (args : List String) (s : Store) :
    Except String Job × Store :=
  match buildJobFromArgs oracle now args with
  | .error e => (.error e, s)
  | .ok job =>
    match UpdateZk job s with
    | .error e => (.error e, s)
    | .ok s2 => (.ok job, s2)

/-- `DelCommand` of `src/cli/cli.go`: `DeleteFromZk` on the named job. -/
def DelCommand (args : List String) (s : Store) :
    Except String Unit × Store :=
  if args.length < 2 then
    (.error ("Job name not supplied for " ++ args.headD "" ++ " subcommand"), s)
  else
    match DeleteFromZk (args.getD 1 "") s with
    | .error e => (.error e, s)
    | .ok s2 => (.ok (), s2)

/-! ## Server registration (`src/unnamed/part_002`, cron.go)

The children of `/servers` are modelled as `(name, ephemeral?)` pairs;
`zkConn.Create(path, data, zk.FlagEphemeral, ...)` appends `(name, true)`. -/

/-- The name-template expansion at the top of `setServerName`: an empty
template defaults to the hostname, otherwise `%h` becomes the hostname
and `%p` the process id. -/
def serverNameOf (hostname : String) (pid : Nat) (name : String) : String :=
  if name = "" then hostname
  else (name.replace "%h" hostname).replace "%p" (toString pid)

/-- `setServerName` of `src/unnamed/part_002`: expand the template;
when `/servers/<serverName>` exists refuse unless `force`, in which
case the stale node is deleted first; then create the presence node
ephemeral. -/
def setServerName (hostname : String) (pid : Nat) (name : String) (force : Bool)
    (servers : List (String × Bool)) :
    Except String String × List (String × Bool) :=
  let serverName := serverNameOf hostname pid name
  if (servers.lookup serverName).isSome then
    if force = false then
      (.error ("Server " ++ serverName ++
               " is already running.  Use -f argument to run anyway."), servers)
    else
      (.ok serverName,
       servers.filter (fun p => p.1 != serverName) ++ [(serverName, true)])
  else (.ok serverName, servers ++ [(serverName, true)])

/-! ## Round-trip lemmas for the codec -/

lemma decodeString_encodeString (s : String) (rest : List Nat) :
    decodeString (encodeString s ++ rest) = some (s, rest) := by
  have hlen : s.data.length ≤ (s.data.map Char.toNat ++ rest).length := by
    simp [List.length_append]
  have htake : (s.data.map Char.toNat ++ rest).take s.data.length
      = s.data.map Char.toNat :=
    List.take_left' (by simp)
  have hdrop : (s.data.map Char.toNat ++ rest).drop s.data.length = rest :=
    List.drop_left' (by simp)
  have hmap : (s.data.map Char.toNat).map Char.ofNat = s.data := by
    simp [List.map_map, Function.comp_def]
  simp [decodeString, encodeString, hlen, htake, hdrop, hmap]

lemma decodeStringList_encodeStringList (l : List String) (rest : List Nat) :
    decodeStringList l.length ((l.map encodeString).flatten ++ rest)
      = some (l, rest) := by
  induction l generalizing rest with
  | nil => rfl
  | cons s t ih =>
    rw [List.length_cons, List.map_cons, List.flatten_cons, List.append_assoc]
    simp only [decodeStringList, decodeString_encodeString, ih]

lemma decodeInt_encodeInt (i : Int) : decodeInt (encodeInt i) = i := by
  by_cases h : 0 ≤ i
  · simp only [encodeInt, if_pos h, decodeInt]
    have : 2 * i.toNat % 2 = 0 := by omega
    rw [if_pos this]
    omega
  · simp only [encodeInt, if_neg h, decodeInt]
    have hodd : (2 * (-i).toNat + 1) % 2 ≠ 0 := by omega
    rw [if_neg hodd]
    omega

lemma decodeString_encodeString_nil (s : String) :
    decodeString (encodeString s) = some (s, []) := by
  have h := decodeString_encodeString s []
  simpa using h

lemma encodeBool_beq (b : Bool) : (encodeBool b == 1) = b := by
  cases b <;> rfl

lemma decodeJob_serialize (j : Job) : decodeJob (Serialize j) = some j := by
  simp only [Serialize, encodeStringList, List.cons_append, List.append_assoc]
  simp [decodeJob, decodeString_encodeString, decodeStringList_encodeStringList,
        decodeString_encodeString_nil, decodeInt_encodeInt, encodeBool_beq]

/-! ## Claim theorems -/

/-- C5: for every Job value — any name, command, argument list,
error flag, next runtime and schedule string — deserializing the
result of serializing it yields the same Job, at any clock value. -/
theorem deserialize_serialize_roundtrip (now : Time) (j : Job) :
    Deserialize now (Serialize j) = .ok j := by
  have hne : ¬ Serialize j = [] := by simp [Serialize]
  rw [Deserialize, if_neg hne, decodeJob_serialize]

/-- C8: deserializing an empty byte string succeeds and yields the
sentinel Job — empty name, `NextRuntime` equal to the clock plus 24
hours — and a scheduler iteration whose `/nextjob` is empty therefore
waits (releasing the lock) instead of dispatching. -/
theorem deserialize_empty_sentinel_waits (now : Time) :
    Deserialize now [] = .ok { Name := "", Cmd := "", Args := [], HasError := false,
                               NextRuntime := now + day, Schedule := "" } ∧
    ∀ (oracle : Oracle) (hasLock : Bool) (jobs : List (String × List Nat)),
      runIteration oracle now hasLock { jobs := jobs, nextjob := [] }
        = .waited false := by
  refine ⟨rfl, ?_⟩
  intro oracle hasLock jobs
  have hfut : now < now + day := lt_add_of_pos_right now (by norm_num [day])
  simp [runIteration, Deserialize, hfut]

/-- C10: `SetNextRuntime` is atomic on error — an unparsable schedule
returns `changed = false` together with an error message, leaving every
field of the job unchanged — and on success it returns the job with the
oracle's instant, reporting `changed = true` exactly when that instant
differs from the previous `NextRuntime`. -/
theorem setNextRuntime_spec (oracle : Oracle) (now : Time) (job : Job) :
    (oracle job.Schedule now = none →
      setNextRuntime oracle now job = (job, false,
        some ("Invalid schedule string " ++ job.Schedule ++
              " for job " ++ job.Name))) ∧
    (∀ t, oracle job.Schedule now = some t →
      setNextRuntime oracle now job
          = ({ job with NextRuntime := t }, decide (job.NextRuntime ≠ t), none) ∧
        ((setNextRuntime oracle now job).2.1 = true ↔ job.NextRuntime ≠ t)) := by
  refine ⟨fun h => ?_, fun t h => ⟨?_, ?_⟩⟩
  · simp [setNextRuntime, h]
  · simp [setNextRuntime, h]
  · simp [setNextRuntime, h]

/-- Witness for C10 at a concrete job, an always-failing oracle and an
oracle returning the instant 4. -/
theorem setNextRuntime_spec_witness :
    (setNextRuntime (fun _ _ => none) 0
        { Name := "w", Cmd := "c", Args := [], HasError := false,
          NextRuntime := 3, Schedule := "s" }
      = ({ Name := "w", Cmd := "c", Args := [], HasError := false,
           NextRuntime := 3, Schedule := "s" }, false,
         some ("Invalid schedule string " ++ "s" ++ " for job " ++ "w"))) ∧
    ((setNextRuntime (fun _ _ => some 4) 0
        { Name := "w", Cmd := "c", Args := [], HasError := false,
          NextRuntime := 3, Schedule := "s" }).2.1 = true ↔ (3 : Time) ≠ 4) :=
  ⟨(setNextRuntime_spec (fun _ _ => none) 0
      { Name := "w", Cmd := "c", Args := [], HasError := false,
        NextRuntime := 3, Schedule := "s" }).1 rfl,
   ((setNextRuntime_spec (fun _ _ => some 4) 0
      { Name := "w", Cmd := "c", Args := [], HasError := false,
        NextRuntime := 3, Schedule := "s" }).2 4 rfl).2⟩

/-- C7: when the schedule string is invalid (the oracle rejects it),
both `add` and `upd` return an error and the store is exactly as it
was — no `/jobs` node is created or overwritten and `/nextjob` is
untouched. -/
theorem add_upd_invalid_schedule_no_write (oracle : Oracle) (now : Time)
    (a n sch c : String) (rest : List String) (s : Store)
    (h : oracle sch now = none) :
    AddCommand oracle now (a :: n :: sch :: c :: rest) s
      = (.error ("Invalid schedule string " ++ sch ++ " for job " ++ n), s) ∧
    UpdCommand oracle now (a :: n :: sch :: c :: rest) s
      = (.error ("Invalid schedule string " ++ sch ++ " for job " ++ n), s) := by
  have hlen : ¬ (a :: n :: sch :: c :: rest).length < 4 := by
    simp only [List.length_cons]
    omega
  have hbuild : buildJobFromArgs oracle now (a :: n :: sch :: c :: rest)
      = .error ("Invalid schedule string " ++ sch ++ " for job " ++ n) := by
    rw [buildJobFromArgs, if_neg hlen]
    simp [setNextRuntime, h]
  exact ⟨by simp [AddCommand, hbuild], by simp [UpdCommand, hbuild]⟩

/-- Witness for C7: the always-invalid oracle on a concrete `add`/`upd`
argument list over the empty store. -/
theorem add_upd_invalid_schedule_no_write_witness :
    AddCommand (fun _ _ => none) 0 ("add" :: "n" :: "s" :: "c" :: [])
        { jobs := [], nextjob := [] }
      = (.error ("Invalid schedule string " ++ "s" ++ " for job " ++ "n"),
         { jobs := [], nextjob := [] }) ∧
    UpdCommand (fun _ _ => none) 0 ("add" :: "n" :: "s" :: "c" :: [])
        { jobs := [], nextjob := [] }
      = (.error ("Invalid schedule string " ++ "s" ++ " for job " ++ "n"),
         { jobs := [], nextjob := [] }) :=
  add_upd_invalid_schedule_no_write (fun _ _ => none) 0 "add" "n" "s" "c" []
    { jobs := [], nextjob := [] } rfl

/-- C9: `setServerName` expands `%h` to the hostname and `%p` to the
pid in the template, defaulting to the bare hostname; an existing
presence node without `force` is an error that creates nothing; with
`force` the stale node is deleted; and in every non-error case the
node `/servers/<serverName>` is created ephemeral. -/
theorem setServerName_spec (hostname name : String) (pid : Nat) (force : Bool)
    (servers : List (String × Bool)) :
    ((name = "" → serverNameOf hostname pid name = hostname) ∧
     (name ≠ "" → serverNameOf hostname pid name
        = (name.replace "%h" hostname).replace "%p" (toString pid))) ∧
    ((servers.lookup (serverNameOf hostname pid name)).isSome = true →
      force = false →
      setServerName hostname pid name force servers
        = (.error ("Server " ++ serverNameOf hostname pid name ++
                   " is already running.  Use -f argument to run anyway."),
           servers)) ∧
    ((servers.lookup (serverNameOf hostname pid name)).isSome = true →
      force = true →
      setServerName hostname pid name force servers
        = (.ok (serverNameOf hostname pid name),
           servers.filter (fun p => p.1 != serverNameOf hostname pid name)
             ++ [(serverNameOf hostname pid name, true)])) ∧
    ((servers.lookup (serverNameOf hostname pid name)).isSome = false →
      setServerName hostname pid name force servers
        = (.ok (serverNameOf hostname pid name),
           servers ++ [(serverNameOf hostname pid name, true)])) := by
  refine ⟨⟨fun h => ?_, fun h => ?_⟩, fun h1 h2 => ?_, fun h1 h2 => ?_,
          fun h1 => ?_⟩
  · simp [serverNameOf, h]
  · simp [serverNameOf, h]
  · simp [setServerName, h1, h2]
  · simp [setServerName, h1, h2]
  · simp [setServerName, h1]

/-- Witness for C9: hostname `h`, pid 1, empty template; creation on an
empty `/servers`, refusal without `force` when `/servers/h` exists, and
forced replacement when it exists. -/
theorem setServerName_spec_witness :
    (setServerName "h" 1 "" false [] = (.ok "h", [("h", true)])) ∧
    (setServerName "h" 1 "" false [("h", true)]
      = (.error ("Server " ++ "h" ++
                 " is already running.  Use -f argument to run anyway."),
         [("h", true)])) ∧
    (setServerName "h" 1 "" true [("h", true)] = (.ok "h", [("h", true)])) := by
  have h1 := (setServerName_spec "h" "" 1 false []).2.2.2 rfl
  have h2 := (setServerName_spec "h" "" 1 false [("h", true)]).2.1 rfl rfl
  have h3 := (setServerName_spec "h" "" 1 true [("h", true)]).2.2.1 rfl rfl
  refine ⟨?_, ?_, ?_⟩
  · simpa using h1
  · simpa using h2
  · simpa using h3

/-- C1 fails on the code: with the children of `/jobs` listed as
`a` (errored, runtime 5) before `b` (healthy, runtime 10),
`setNextjob` publishes the errored job `a` to `/nextjob` even though
the healthy job `b` is present — the scan seeds on the first child
without looking at `hasError`, and no tie-break by name exists. -/
theorem setNextjob_publishes_errored_job :
    setNextjob 0
        { jobs := [("a", Serialize { Name := "a", Cmd := "c", Args := [],
                                     HasError := true, NextRuntime := 5, Schedule := "s" }),
                   ("b", Serialize { Name := "b", Cmd := "c", Args := [],
                                     HasError := false, NextRuntime := 10, Schedule := "s" })],
          nextjob := [] }
      = .ok { jobs := [("a", Serialize { Name := "a", Cmd := "c", Args := [],
                                         HasError := true, NextRuntime := 5, Schedule := "s" }),
                       ("b", Serialize { Name := "b", Cmd := "c", Args := [],
                                         HasError := false, NextRuntime := 10, Schedule := "s" })],
              nextjob := Serialize { Name := "a", Cmd := "c", Args := [],
                                     HasError := true, NextRuntime := 5, Schedule := "s" } } ∧
    ({ Name := "a", Cmd := "c", Args := [], HasError := true,
       NextRuntime := 5, Schedule := "s" : Job }).HasError = true ∧
    ({ Name := "b", Cmd := "c", Args := [], HasError := false,
       NextRuntime := 10, Schedule := "s" : Job }).HasError = false :=
  ⟨rfl, rfl, rfl⟩

/-- C3 fails on the code: with the head `/nextjob` holding job `b`
(runtime 10), a successful `add` of job `a` (runtime 5) creates
`/jobs/a` but leaves `/nextjob` holding `b` — `AddCommand` never runs
any head reconciliation — and even a direct `checkForNextjobUpdate`
call for `a` is a no-op because the head's name differs, despite `a`
running earlier. -/
theorem addCommand_skips_head_reconciliation :
    AddCommand (fun _ _ => some 5) 0 ["add", "a", "sa", "c"]
        { jobs := [("b", Serialize { Name := "b", Cmd := "c", Args := [],
                                     HasError := false, NextRuntime := 10, Schedule := "sb" })],
          nextjob := Serialize { Name := "b", Cmd := "c", Args := [],
                                 HasError := false, NextRuntime := 10, Schedule := "sb" } }
      = (.ok { Name := "a", Cmd := "c", Args := [],
               HasError := false, NextRuntime := 5, Schedule := "sa" },
         { jobs := [("b", Serialize { Name := "b", Cmd := "c", Args := [],
                                      HasError := false, NextRuntime := 10, Schedule := "sb" }),
                    ("a", Serialize { Name := "a", Cmd := "c", Args := [],
                                      HasError := false, NextRuntime := 5, Schedule := "sa" })],
           nextjob := Serialize { Name := "b", Cmd := "c", Args := [],
                                  HasError := false, NextRuntime := 10, Schedule := "sb" } }) ∧
    (5 : Time) < 10 ∧
    checkForNextjobUpdate 0
        { Name := "a", Cmd := "c", Args := [],
          HasError := false, NextRuntime := 5, Schedule := "sa" }
        { jobs := [("b", Serialize { Name := "b", Cmd := "c", Args := [],
                                     HasError := false, NextRuntime := 10, Schedule := "sb" }),
                   ("a", Serialize { Name := "a", Cmd := "c", Args := [],
                                     HasError := false, NextRuntime := 5, Schedule := "sa" })],
          nextjob := Serialize { Name := "b", Cmd := "c", Args := [],
                                 HasError := false, NextRuntime := 10, Schedule := "sb" } }
      = .ok { jobs := [("b", Serialize { Name := "b", Cmd := "c", Args := [],
                                         HasError := false, NextRuntime := 10, Schedule := "sb" }),
                       ("a", Serialize { Name := "a", Cmd := "c", Args := [],
                                         HasError := false, NextRuntime := 5, Schedule := "sa" })],
              nextjob := Serialize { Name := "b", Cmd := "c", Args := [],
                                     HasError := false, NextRuntime := 10, Schedule := "sb" } } :=
  ⟨rfl, by decide, rfl⟩

/-- C4 fails on the code: rescheduling job `a` whose schedule the
oracle rejects marks `hasError` only on the in-memory copy — the
`else if` chain skips `UpdateZk` — so `/jobs/a` still holds the
un-marked record and the following `setNextjob` republishes that very
job as the head instead of excluding it. -/
theorem updateSchedule_error_mark_not_persisted :
    updateSchedule (fun _ _ => none) 5
        { Name := "a", Cmd := "c", Args := [],
          HasError := false, NextRuntime := 5, Schedule := "bad" }
        { jobs := [("a", Serialize { Name := "a", Cmd := "c", Args := [],
                                     HasError := false, NextRuntime := 5, Schedule := "bad" })],
          nextjob := [] }
      = .ok { jobs := [("a", Serialize { Name := "a", Cmd := "c", Args := [],
                                         HasError := false, NextRuntime := 5, Schedule := "bad" })],
              nextjob := Serialize { Name := "a", Cmd := "c", Args := [],
                                     HasError := false, NextRuntime := 5, Schedule := "bad" } } ∧
    ({ Name := "a", Cmd := "c", Args := [], HasError := false,
       NextRuntime := 5, Schedule := "bad" : Job }).HasError = false :=
  ⟨rfl, rfl⟩

/-- C6 fails on the code: with `/jobs` containing exactly the job `j1`,
the list operation with pattern `j*` does not glob-filter; it fetches
the literal node `/jobs/j*` and errors, while the same job is returned
when asked for by its exact name. -/
theorem listJobs_wildcard_not_globbed :
    ListJobs 0 "j*"
        { jobs := [("j1", Serialize { Name := "j1", Cmd := "c", Args := [],
                                      HasError := false, NextRuntime := 5, Schedule := "s" })],
          nextjob := [] }
      = .error ("Can't fetch job " ++ "j*") ∧
    ListJobs 0 "j1"
        { jobs := [("j1", Serialize { Name := "j1", Cmd := "c", Args := [],
                                      HasError := false, NextRuntime := 5, Schedule := "s" })],
          nextjob := [] }
      = .ok [{ Name := "j1", Cmd := "c", Args := [],
               HasError := false, NextRuntime := 5, Schedule := "s" }] :=
  ⟨rfl, rfl⟩

/-- C2 (amended): in every scheduler iteration that reaches the
dispatch step the server held the lock, the dispatched job is exactly
the value read from `/nextjob` in that (post-acquisition) iteration,
and its `NextRuntime` is not after the current time; and whenever the
head read from `/nextjob` has a future `NextRuntime` the iteration
releases the lock and returns to waiting without dispatching.  The
code makes no comparison with the head the server competed for. -/
theorem runIteration_dispatch_spec (oracle : Oracle) (now : Time)
    (hasLock : Bool) (s : Store) :
    (∀ j s2, runIteration oracle now hasLock s = .dispatched j s2 →
      hasLock = true ∧ Deserialize now s.nextjob = .ok j ∧
        ¬ now < j.NextRuntime) ∧
    (∀ j, Deserialize now s.nextjob = .ok j → now < j.NextRuntime →
      runIteration oracle now hasLock s = .waited false) := by
  constructor
  · intro j s2 h
    cases hDe : Deserialize now s.nextjob with
    | error e =>
      unfold runIteration at h
      rw [hDe] at h
      simp at h
    | ok job =>
      unfold runIteration at h
      rw [hDe] at h
      by_cases hfut : now < job.NextRuntime
      · simp [hfut] at h
      · cases hasLock with
        | false => simp [hfut] at h
        | true =>
          cases hUp : updateSchedule oracle now job s with
          | error e => simp [hfut, hUp] at h
          | ok s3 =>
            simp [hfut, hUp] at h
            obtain ⟨h1, h2⟩ := h
            subst h1
            exact ⟨rfl, rfl, hfut⟩
  · intro j hDe hfut
    unfold runIteration
    rw [hDe]
    simp [hfut]

/-- Witness for C2: a concrete dispatching iteration (ready head `a`
at instant 5, lock held, oracle moving it to 6) and a concrete waiting
iteration (head `f` due at 10 read at instant 5). -/
theorem runIteration_dispatch_spec_witness :
    (true = true ∧
     Deserialize 5 (Serialize { Name := "a", Cmd := "c", Args := [],
                                HasError := false, NextRuntime := 5, Schedule := "s" })
       = .ok { Name := "a", Cmd := "c", Args := [],
               HasError := false, NextRuntime := 5, Schedule := "s" } ∧
     ¬ (5 : Time) < 5) ∧
    runIteration (fun _ _ => some 6) 5 false
        { jobs := [],
          nextjob := Serialize { Name := "f", Cmd := "c", Args := [],
                                 HasError := false, NextRuntime := 10, Schedule := "s" } }
      = .waited false :=
  ⟨(runIteration_dispatch_spec (fun _ _ => some 6) 5 true
      { jobs := [("a", Serialize { Name := "a", Cmd := "c", Args := [],
                                   HasError := false, NextRuntime := 5, Schedule := "s" })],
        nextjob := Serialize { Name := "a", Cmd := "c", Args := [],
                               HasError := false, NextRuntime := 5, Schedule := "s" } }).1
     { Name := "a", Cmd := "c", Args := [],
       HasError := false, NextRuntime := 5, Schedule := "s" }
     { jobs := [("a", Serialize { Name := "a", Cmd := "c", Args := [],
                                  HasError := false, NextRuntime := 6, Schedule := "s" })],
       nextjob := Serialize { Name := "a", Cmd := "c", Args := [],
                              HasError := false, NextRuntime := 6, Schedule := "s" } }
     rfl,
   (runIteration_dispatch_spec (fun _ _ => some 6) 5 false
      { jobs := [],
        nextjob := Serialize { Name := "f", Cmd := "c", Args := [],
                               HasError := false, NextRuntime := 10, Schedule := "s" } }).2
     { Name := "f", Cmd := "c", Args := [],
       HasError := false, NextRuntime := 10, Schedule := "s" }
     rfl (by decide)⟩

/-- C2 counterexample: the claim's conjunct "its deserialized identity
matches the head the server competed for" is false.  A server that
competed for the ready head `a` (its unlocked iteration ends acquiring
the lock) dispatches `b` in the following locked iteration after a
concurrent update retargeted `/nextjob` to the distinct ready job `b`. -/
theorem runIteration_dispatches_retargeted_head :
    runIteration (fun _ _ => some 9) 5 false
        { jobs := [("a", Serialize { Name := "a", Cmd := "c", Args := [],
                                     HasError := false, NextRuntime := 5, Schedule := "s" })],
          nextjob := Serialize { Name := "a", Cmd := "c", Args := [],
                                 HasError := false, NextRuntime := 5, Schedule := "s" } }
      = .locked ∧
    runIteration (fun _ _ => some 9) 5 true
        { jobs := [("b", Serialize { Name := "b", Cmd := "c", Args := [],
                                     HasError := false, NextRuntime := 4, Schedule := "s" })],
          nextjob := Serialize { Name := "b", Cmd := "c", Args := [],
                                 HasError := false, NextRuntime := 4, Schedule := "s" } }
      = .dispatched
          { Name := "b", Cmd := "c", Args := [],
            HasError := false, NextRuntime := 4, Schedule := "s" }
          { jobs := [("b", Serialize { Name := "b", Cmd := "c", Args := [],
                                       HasError := false, NextRuntime := 9, Schedule := "s" })],
            nextjob := Serialize { Name := "b", Cmd := "c", Args := [],
                                   HasError := false, NextRuntime := 9, Schedule := "s" } } ∧
    ({ Name := "b", Cmd := "c", Args := [], HasError := false,
       NextRuntime := 4, Schedule := "s" : Job }).Name
      ≠ ({ Name := "a", Cmd := "c", Args := [], HasError := false,
           NextRuntime := 5, Schedule := "s" : Job }).Name :=
  ⟨rfl, rfl, by decide⟩

end CastleCron
